import Mathlib

/- Verification development for the reader-writer chat server
   (src/backend/server.c).

   The file shallowly embeds the parts of the server that the claims are
   about:

   * the per-connection writer session loop of handle_client
     (role negotiation, initial-payload handling, the command loop,
     teardown), modelled as a trace-producing function over the finite
     list of frames received on the connection;
   * the reader path and fetch_messages_from_db_pool, modelled as the
     buffer-building fold with its two truncation bounds
     (snprintf into char line[1024], strncat into char out[32768]);
   * the global reader/writer lock protocol (semaphores wrt and mutex
     plus reader_count), modelled as a small-step transition system over
     an arbitrary finite collection of reader/writer threads.

   Strings are modelled as Lean String / List Char; the C code operates
   on bytes and all protocol strings are ASCII, so character counts agree
   with byte counts.  Machine integers stay in range in all modelled
   code, so Nat/Int are used directly. -/

/-! ## String helpers from server.c -/

/-- Embeds rtrim (server.c line 41): drop trailing newline and carriage
return characters, on the underlying character list. -/
def rtrimL (l : List Char) : List Char :=
  (l.reverse.dropWhile fun c => c == '\n' || c == '\r').reverse

/-- Embeds rtrim (server.c line 41) on strings. -/
def rtrim (s : String) : String :=
  String.mk (rtrimL s.data)

/-- Embeds strstr-based containment: true iff the pattern occurs as a
contiguous substring of the haystack (server.c lines 149-150). -/
def containsB (pat : List Char) : List Char → Bool
  | [] => pat.isEmpty
  | c :: t => pat.isPrefixOf (c :: t) || containsB pat t

/-- Byte-truncation of a string to at most n characters, modelling
snprintf writing into a fixed buffer of n+1 bytes (ASCII contents). -/
def takeStr (n : Nat) (s : String) : String :=
  String.mk (s.data.take n)

/-! ## Role negotiation (server.c lines 143-151) -/

/-- Connection role as determined by handle_client. -/
inductive Role
  | reader
  | writer
  | unknown
  deriving DecidableEq

/-- Embeds the role detection of handle_client lines 143-151: first the
strncmp checks against the frame head ("writer" checked first in the
source, which is equivalent on the disjoint literals), then the strstr
fallback anywhere in the frame, else unknown (mode left empty). -/
def detectRole (s : String) : Role :=
  if "writer".data.isPrefixOf s.data then .writer
  else if "reader".data.isPrefixOf s.data then .reader
  else if containsB "writer".data s.data then .writer
  else if containsB "reader".data s.data then .reader
  else .unknown

/-- Embeds the initial-payload extraction of the writer branch
(server.c lines 161-162): when the rtrimmed first frame is longer than
6 characters, take everything after position 6, skip leading spaces,
newlines and carriage returns, and rtrim; the payload is used only when
nonempty. -/
def extractPayload (initial : String) : Option String :=
  if 6 < initial.data.length then
    let p := (initial.data.drop 6).dropWhile fun c => c == ' ' || c == '\n' || c == '\r'
    if p.isEmpty then none else some (String.mk (rtrimL p))
  else none

/-! ## Store collaborator (insert_message_to_db_pool, server.c 47-83) -/

/-- Outcome of one call into the MongoDB collaborator, one constructor
per return path of insert_message_to_db_pool; insertFailed carries the
driver diagnostic (error.message). -/
inductive DbOutcome
  | ok
  | noPool
  | noClient
  | noCollection
  | insertFailed (emsg : String)
  deriving DecidableEq

/-- Embeds the result string of insert_message_to_db_pool
(server.c lines 47-83).  The failure diagnostic goes through
snprintf(buf, 512, "ERROR: insert failed: %s\n", error.message), which
writes at most 511 characters. -/
def insert_message_to_db_pool : DbOutcome → String
  | .noPool => "ERROR: no DB pool\n"
  | .noClient => "ERROR: could not pop client\n"
  | .noCollection => "ERROR: no collection\n"
  | .insertFailed e => takeStr 511 ("ERROR: insert failed: " ++ e ++ "\n")
  | .ok => "OK: message stored\n"

/-! ## Reader fetch path (fetch_messages_from_db_pool, server.c 86-131) -/

/-- Two-digit zero padding, as produced by strftime %d %H %M %S. -/
def pad2 (n : Nat) : String :=
  if n < 10 then "0" ++ toString n else toString n

/-- Four-digit zero padding, as produced by strftime %Y. -/
def pad4 (n : Nat) : String :=
  if n < 10 then "000" ++ toString n
  else if n < 100 then "00" ++ toString n
  else if n < 1000 then "0" ++ toString n
  else toString n

/-- Embeds the timestamp formatting of server.c lines 116-119:
localtime_r of millis/1000 followed by strftime "%Y-%m-%d %H:%M:%S".
localtime_r depends on the host timezone; the model fixes TZ=UTC, so
the civil date is computed by the standard days-to-civil-date
conversion.  Timestamps produced by the server are nonnegative
(time(NULL)*1000), so the argument is a Nat. -/
def formatTimestamp (millis : Nat) : String :=
  let sec := millis / 1000
  let secOfDay := sec % 86400
  let z := sec / 86400 + 719468
  let era := z / 146097
  let doe := z % 146097
  let yoe := (doe - doe / 1460 + doe / 36524 - doe / 146096) / 365
  let doy := doe - (365 * yoe + yoe / 4 - yoe / 100)
  let mp := (5 * doy + 2) / 153
  let d := doy - (153 * mp + 2) / 5 + 1
  let m := if mp < 10 then mp + 3 else mp - 9
  let y := yoe + era * 400 + (if m ≤ 2 then 1 else 0)
  pad4 y ++ "-" ++ pad2 m ++ "-" ++ pad2 d ++ " " ++
    pad2 (secOfDay / 3600) ++ ":" ++ pad2 (secOfDay % 3600 / 60) ++ ":" ++
    pad2 (secOfDay % 60)

/-- The full formatted line for one stored document, the text that
snprintf(line, sizeof(line), "[%s] %s\n", timestr, msg) would produce
with an unbounded buffer (server.c line 122). -/
def lineFull (msg : String) (ts : Nat) : List Char :=
  ('[' :: (formatTimestamp ts).data) ++ (']' :: ' ' :: msg.data) ++ ['\n']

/-- The line actually placed in char line[1024] by snprintf: the full
line truncated to at most 1023 characters (server.c lines 121-122). -/
def clipLine (msg : String) (ts : Nat) : List Char :=
  (lineFull msg ts).take 1023

/-- Embeds strncat(buffer, line, buffer_size - strlen(buffer) - 1) with
buffer_size = 32768 (server.c line 123): append at most the remaining
capacity, keeping strlen(buffer) at most 32767. -/
def strncatBuf (buf line : List Char) : List Char :=
  buf ++ line.take (32768 - buf.length - 1)

/-- Embeds the buffer-filling loop of fetch_messages_from_db_pool
(server.c lines 103-124) on the happy path (pool and collection
available).  The input list models the cursor sequence returned by the
collaborator for the query sorted ascending by timestamp
(BCON "sort" timestamp 1, line 100); each document is its message text
with its timestamp in milliseconds. -/
def fetch_messages_from_db_pool (docs : List (String × Nat)) : List Char :=
  docs.foldl (fun b d => strncatBuf b (clipLine d.1 d.2)) []

/-! ## Writer session state machine (handle_client writer branch) -/

/-- Per-connection writer session state: has_lock (server.c line 157)
plus a counter of insert calls made so far, used to index the outcome
oracle of the external Store collaborator. -/
structure WSt where
  hasLock : Bool
  calls : Nat
  deriving DecidableEq

/-- Observable events of one connection handler: writer-gate and
reader-side lock operations, bytes sent to the client, Store calls, and
closing the socket.  send carries exactly the bytes passed to send(),
i.e. the first len characters of the C string literal. -/
inductive Ev
  | acqW
  | relW
  | acqR
  | relR
  | fetchAll
  | send (s : String)
  | insert (s : String)
  | close
  deriving DecidableEq

/-- Embeds the handling of a nonempty initial payload in the writer
branch (server.c lines 164-183).  Result: none when the command blocks
forever (sem_wait on the writer gate this very session already holds,
which no other party can post), otherwise the new session state and the
events emitted.  Note the source sends only 26 of the 27 bytes of
"OK: writer session started\n" and "OK: writer session stopped\n", so
the transmitted reply lacks the newline; and the stop branch replies OK
without touching the gate (has_lock is necessarily 0 here, see the
source comment "stop without lock => no-op"). -/
def initStep (db : Nat → DbOutcome) (st : WSt) (cmd : String) :
    Option (WSt × List Ev) :=
  if cmd = "start" then
    if st.hasLock then none
    else some ({ st with hasLock := true },
      [.acqW, .send "OK: writer session started"])
  else if cmd = "stop" then
    some (st, [.send "OK: writer session stopped"])
  else if st.hasLock = false then
    some (st, [.send "ERROR: start writing first\n"])
  else
    some ({ st with calls := st.calls + 1 },
      [.insert cmd, .send (insert_message_to_db_pool (db st.calls))])

/-- Embeds one iteration body of the writer command loop
(server.c lines 186-218) on an already rtrimmed command.  Result: none
when the command blocks forever (start while has_lock, a second
sem_wait on the self-held gate); otherwise the new state, the emitted
events, and whether the loop breaks ("exit").  The empty command is
skipped (line 189).  The started/stopped acknowledgements are sent with
length 26, dropping their trailing newline. -/
def loopStep (db : Nat → DbOutcome) (st : WSt) (cmd : String) :
    Option (WSt × List Ev × Bool) :=
  if cmd = "" then some (st, [], false)
  else if cmd = "start" then
    if st.hasLock then none
    else some ({ st with hasLock := true },
      [.acqW, .send "OK: writer session started"], false)
  else if cmd = "stop" then
    if st.hasLock then
      some ({ st with hasLock := false },
        [.relW, .send "OK: writer session stopped"], false)
    else some (st, [.send "ERROR: no active writer session\n"], false)
  else if cmd = "exit" then some (st, [], true)
  else if st.hasLock = false then
    some (st, [.send "ERROR: You must start writing first\n"], false)
  else
    some ({ st with calls := st.calls + 1 },
      [.insert cmd, .send (insert_message_to_db_pool (db st.calls))], false)

/-- The loop-view of loopStep: state and events only, for comparing the
initial-payload handling against the loop handling of one command. -/
def projLoop (db : Nat → DbOutcome) (st : WSt) (cmd : String) :
    Option (WSt × List Ev) :=
  (loopStep db st cmd).map fun x => (x.1, x.2.1)

/-- Embeds the writer receive loop (server.c lines 186-218).  The frame
list is the complete sequence of frames the peer delivers before the
connection yields recv <= 0 (end of stream or error); exhausting the
list therefore exits the loop exactly as an abrupt disconnect does.
Each received frame is rtrimmed before dispatch.  none propagates a
forever-blocked command. -/
def runLoop (db : Nat → DbOutcome) : WSt → List String → Option (WSt × List Ev)
  | st, [] => some (st, [])
  | st, f :: rest =>
    match loopStep db st (rtrim f) with
    | none => none
    | some (st2, evs, ex) =>
      if ex then some (st2, evs)
      else
        match runLoop db st2 rest with
        | none => none
        | some (st3, evs2) => some (st3, evs ++ evs2)

/-- Embeds the whole writer branch of handle_client
(server.c lines 153-227): optional initial payload, the command loop,
then teardown — if has_lock is still set the gate is posted
(lines 220-223) — and close(sock).  none means the handler never
reaches teardown (a command blocked forever). -/
def runWriter (db : Nat → DbOutcome) (payload : Option String)
    (frames : List String) : Option (List Ev) :=
  let first : Option (WSt × List Ev) :=
    match payload with
    | none => some (⟨false, 0⟩, [])
    | some p => initStep db ⟨false, 0⟩ p
  match first with
  | none => none
  | some (st, evs0) =>
    match runLoop db st frames with
    | none => none
    | some (st2, evs1) =>
      some (evs0 ++ evs1 ++ (if st2.hasLock then [Ev.relW] else []) ++ [Ev.close])

/-- Embeds the reader branch of handle_client (server.c lines 229-248):
acquire the read side (mutex / reader_count++ / first-reader gate wait,
lines 231-234), fetch and send the formatted messages in one frame,
release the read side (lines 241-244), close. -/
def runReader (docs : List (String × Nat)) : Option (List Ev) :=
  some [.acqR, .fetchAll,
    .send (String.mk (fetch_messages_from_db_pool docs)), .relR, .close]

/-- Embeds handle_client (server.c lines 134-255) for one connection:
none as first frame models recv <= 0 on the role frame (the handler
closes silently, line 139); otherwise the rtrimmed frame is classified
and dispatched; an unknown role closes the connection with no reply
(lines 250-254). -/
def handle_client (db : Nat → DbOutcome) (docs : List (String × Nat))
    (firstFrame : Option String) (frames : List String) : Option (List Ev) :=
  match firstFrame with
  | none => some [.close]
  | some raw =>
    let initial := rtrim raw
    match detectRole initial with
    | .writer => runWriter db (extractPayload initial) frames
    | .reader => runReader docs
    | .unknown => some [.close]

/-- A Store oracle on which every insert succeeds. -/
def db0 : Nat → DbOutcome := fun _ => .ok

/-! ## Global lock protocol (semaphores wrt, mutex and reader_count) -/

/-- Program counter of a reader thread through server.c lines 231-247:
r0 before sem_wait(&mutex); r1 holding the mutex before reader_count++;
r2 after the increment, before the first-reader gate wait (line 233);
r3 after the gate decision, before sem_post(&mutex); r4 in the read
section (fetch and send); r5 holding the mutex again before
reader_count--; r6 after the decrement, before the last-reader gate
post (line 243); r7 before the final sem_post(&mutex); rdone closed. -/
inductive RPc
  | r0
  | r1
  | r2
  | r3
  | r4
  | r5
  | r6
  | r7
  | rdone
  deriving DecidableEq

/-- State of one thread in the lock protocol: a reader at some program
counter, a writer session with its has_lock flag (its lock-relevant
actions are start, stop and teardown), or a finished thread. -/
inductive TSt
  | reader (pc : RPc)
  | writer (hasLock : Bool)
  | wdone
  deriving DecidableEq

/-- True for reader program counters that hold the mutex semaphore. -/
def isMtx : TSt → Bool
  | .reader .r1 | .reader .r2 | .reader .r3
  | .reader .r5 | .reader .r6 | .reader .r7 => true
  | _ => false

/-- True for reader program counters counted in reader_count (after
their increment and before their decrement). -/
def isCnt : TSt → Bool
  | .reader .r2 | .reader .r3 | .reader .r4 | .reader .r5 => true
  | _ => false

/-- True for reader program counters past the 0-to-1 gate acquisition
and before the 1-to-0 gate release: the region in which the writer gate
is held on behalf of the readers. -/
def isRS : TSt → Bool
  | .reader .r3 | .reader .r4 | .reader .r5 | .reader .r6 => true
  | _ => false

/-- True for a writer session currently holding the writer gate. -/
def isWHold : TSt → Bool
  | .writer true => true
  | _ => false

/-- Number of threads holding the mutex semaphore. -/
def nMtx (ts : List TSt) : Nat := ts.countP isMtx

/-- Number of reader threads counted in reader_count. -/
def nCnt (ts : List TSt) : Nat := ts.countP isCnt

/-- Number of reader threads in the gate-held region. -/
def nRS (ts : List TSt) : Nat := ts.countP isRS

/-- Number of writer sessions holding the gate. -/
def nW (ts : List TSt) : Nat := ts.countP isWHold

/-- Global state of the synchronization objects of server.c lines
29-32 — the wrt and mutex semaphore values and the shared reader_count
— together with the states of all connection threads. -/
structure SysState where
  wrt : Nat
  mutex : Nat
  reader_count : Int
  ts : List TSt
  deriving DecidableEq

/-- One atomic action of a single thread, relating its thread state and
the shared wrt, mutex and reader_count before and after.  sem_wait is
enabled exactly when the semaphore is positive (the w+1 / m+1 source
patterns) and decrements it; sem_post increments.  The reader steps
follow server.c lines 231-234 and 241-244; the check reader_count==1
(resp. ==0) merges with the adjacent gate operation because
reader_count cannot change while this reader holds the mutex.  The
writer steps are the lock-relevant actions of the session loop: wStart
is the unconditional sem_wait(&wrt) of the start command (line 192,
from either has_lock value, after which has_lock = 1), wStop the stop
command with the lock held (lines 197-199), wTearHeld / wTearFree the
teardown of lines 220-223.  Commands that do not touch the lock state
leave the system state unchanged and are omitted. -/
inductive TStep : TSt → Nat → Nat → Int → TSt → Nat → Nat → Int → Prop
  | rAcqMtx (w m : Nat) (c : Int) :
      TStep (.reader .r0) w (m + 1) c (.reader .r1) w m c
  | rInc (w m : Nat) (c : Int) :
      TStep (.reader .r1) w m c (.reader .r2) w m (c + 1)
  | rAcqGate (w m : Nat) (c : Int) (h : c = 1) :
      TStep (.reader .r2) (w + 1) m c (.reader .r3) w m c
  | rSkipGate (w m : Nat) (c : Int) (h : c ≠ 1) :
      TStep (.reader .r2) w m c (.reader .r3) w m c
  | rRelMtx1 (w m : Nat) (c : Int) :
      TStep (.reader .r3) w m c (.reader .r4) w (m + 1) c
  | rAcqMtx2 (w m : Nat) (c : Int) :
      TStep (.reader .r4) w (m + 1) c (.reader .r5) w m c
  | rDec (w m : Nat) (c : Int) :
      TStep (.reader .r5) w m c (.reader .r6) w m (c - 1)
  | rRelGate (w m : Nat) (c : Int) (h : c = 0) :
      TStep (.reader .r6) w m c (.reader .r7) (w + 1) m c
  | rSkipRel (w m : Nat) (c : Int) (h : c ≠ 0) :
      TStep (.reader .r6) w m c (.reader .r7) w m c
  | rRelMtx2 (w m : Nat) (c : Int) :
      TStep (.reader .r7) w m c (.reader .rdone) w (m + 1) c
  | wStart (b : Bool) (w m : Nat) (c : Int) :
      TStep (.writer b) (w + 1) m c (.writer true) w m c
  | wStop (w m : Nat) (c : Int) :
      TStep (.writer true) w m c (.writer false) (w + 1) m c
  | wTearHeld (w m : Nat) (c : Int) :
      TStep (.writer true) w m c .wdone (w + 1) m c
  | wTearFree (w m : Nat) (c : Int) :
      TStep (.writer false) w m c .wdone w m c

/-- Interleaving step of the whole system: some thread k takes one
TStep; all other threads are unchanged. -/
def Step (s s2 : SysState) : Prop :=
  ∃ k t t2, s.ts.get? k = some t ∧
    TStep t s.wrt s.mutex s.reader_count t2 s2.wrt s2.mutex s2.reader_count ∧
    s2.ts = s.ts.set k t2

/-- Initial states: both semaphores initialised to 1
(server.c lines 272-273), reader_count = 0, and every thread still at
its entry point. -/
def IsInit (s : SysState) : Prop :=
  s.wrt = 1 ∧ s.mutex = 1 ∧ s.reader_count = 0 ∧
  ∀ t ∈ s.ts, t = .reader .r0 ∨ t = .writer false

/-- One when the writer gate is held on behalf of the readers. -/
def gateR (ts : List TSt) : Nat :=
  if nRS ts = 0 then 0 else 1

/-- The inductive invariant of the lock protocol: the mutex semaphore
plus its holders account for one token; reader_count equals the number
of readers between their increment and decrement; and the writer gate
token is either in the wrt semaphore, held by exactly one writer, or
held on behalf of the readers. -/
def LockInv (s : SysState) : Prop :=
  s.mutex + nMtx s.ts = 1 ∧
  s.reader_count = (nCnt s.ts : Int) ∧
  s.wrt + nW s.ts + gateR s.ts = 1

/-- Reachability from a state via interleaving steps. -/
def Reachable (s0 s : SysState) : Prop :=
  Relation.ReflTransGen Step s0 s

/-- Concrete initial state for the mutual-exclusion counterexample: one
writer connection and one reader connection. -/
def c1s0 : SysState := ⟨1, 1, 0, [.writer false, .reader .r0]⟩

/-- After the writer's start command acquired the gate. -/
def c1s1 : SysState := ⟨0, 1, 0, [.writer true, .reader .r0]⟩

/-- After the reader acquired the mutex. -/
def c1s2 : SysState := ⟨0, 0, 0, [.writer true, .reader .r1]⟩

/-- After reader_count++: reader_count = 1 while the writer still holds
the gate (the reader is about to block in sem_wait(&wrt)). -/
def c1s3 : SysState := ⟨0, 0, 1, [.writer true, .reader .r2]⟩

/-- A 1024-character message: its formatted line exceeds the 1023
characters that fit in char line[1024]. -/
def bigMsg : String := String.mk (List.replicate 1024 'a')

/-- Store contents with the single long message. -/
def docsOneBig : List (String × Nat) := [(bigMsg, 0)]

/-- A 1080-character message for the prefix counterexample. -/
def bigMsg2 : String := String.mk (List.replicate 1080 'a')

/-- Store contents whose first formatted line is clipped and which has
a second message after it. -/
def docsTwo : List (String × Nat) := [(bigMsg2, 0), ("b", 0)]

/-- Number of occurrences of one event in a trace. -/
def countEv (e : Ev) (l : List Ev) : Nat :=
  l.countP fun x => x == e

/-- The framing property of one reply actually transmitted by the
writer branch: it is prefixed "OK: " or "ERROR: ", and it is newline
terminated except for the two session acknowledgements (sent with
length 26, dropping their newline) and a Store diagnostic truncated at
the 511-character snprintf bound. -/
def GoodReply (s : String) : Prop :=
  ("OK: ".data.isPrefixOf s.data = true ∨
   "ERROR: ".data.isPrefixOf s.data = true) ∧
  (s.data.getLast? = some '\n' ∨ s = "OK: writer session started" ∨
   s = "OK: writer session stopped" ∨ s.length = 511)

/-- Property of every event emitted inside the writer session loop:
it is not the closing of the socket, and if it is a send then the sent
reply satisfies GoodReply. -/
def EvOk (e : Ev) : Prop :=
  e ≠ Ev.close ∧ ∀ s, e = Ev.send s → GoodReply s

instance (s : String) : Decidable (GoodReply s) := by
  unfold GoodReply; infer_instance

/-! ## Counting lemmas for the lock protocol -/

/-- Updating position k of a list changes a countP total by exactly the
difference of the old and new element contributions. -/
theorem countP_set {α : Type} (p : α → Bool) :
    ∀ (l : List α) (k : Nat) (t t2 : α), l.get? k = some t →
      (l.set k t2).countP p + (if p t then 1 else 0) =
        l.countP p + (if p t2 then 1 else 0) := by
  intro l
  induction l with
  | nil => intro k t t2 h; simp at h
  | cons a as ih =>
    intro k t t2 h
    cases k with
    | zero =>
      rw [List.get?_cons_zero, Option.some.injEq] at h
      subst h
      simp only [List.set_cons_zero, List.countP_cons]
      omega
    | succ n =>
      rw [List.get?_cons_succ] at h
      have e := ih n t t2 h
      simp only [List.set_cons_succ, List.countP_cons]
      omega

/-- A thread present in the list makes the count of its class positive. -/
theorem countP_pos_of_get {α : Type} (p : α → Bool) (l : List α) (k : Nat)
    (t : α) (h : l.get? k = some t) (hp : p t = true) : 0 < l.countP p :=
  List.countP_pos_iff.mpr ⟨t, List.get?_mem h, hp⟩

/-- Pointwise bound: every reader counted in reader_count is either in
the gate-held region or holds the mutex. -/
theorem nCnt_le (ts : List TSt) : nCnt ts ≤ nRS ts + nMtx ts := by
  induction ts with
  | nil => simp [nCnt, nRS, nMtx]
  | cons t ts ih =>
    simp only [nCnt, nRS, nMtx, List.countP_cons] at ih ⊢
    rcases t with pc | b | _
    · cases pc <;> simp [isCnt, isRS, isMtx] <;> omega
    · simp [isCnt, isRS, isMtx]; omega
    · simp [isCnt, isRS, isMtx]; omega

/-- Pointwise bound: every reader in the gate-held region is either
counted in reader_count or holds the mutex. -/
theorem nRS_le (ts : List TSt) : nRS ts ≤ nCnt ts + nMtx ts := by
  induction ts with
  | nil => simp [nCnt, nRS, nMtx]
  | cons t ts ih =>
    simp only [nCnt, nRS, nMtx, List.countP_cons] at ih ⊢
    rcases t with pc | b | _
    · cases pc <;> simp [isCnt, isRS, isMtx] <;> omega
    · simp [isCnt, isRS, isMtx]; omega
    · simp [isCnt, isRS, isMtx]; omega

/-- The lock invariant holds in every initial state. -/
theorem lockInv_init {s : SysState} (h : IsInit s) : LockInv s := by
  obtain ⟨hw, hm, hc, hts⟩ := h
  have z : ∀ p : TSt → Bool, p (.reader .r0) = false → p (.writer false) = false →
      s.ts.countP p = 0 := by
    intro p h1 h2
    exact List.countP_eq_zero.mpr fun t ht => by
      rcases hts t ht with rfl | rfl <;> simp [h1, h2]
  refine ⟨?_, ?_, ?_⟩
  · rw [hm]; unfold nMtx; rw [z isMtx rfl rfl]
  · rw [hc]; unfold nCnt; rw [z isCnt rfl rfl]; rfl
  · unfold nW gateR nRS
    rw [hw, z isWHold rfl rfl, z isRS rfl rfl]
    simp

/-- Every interleaving step of the lock protocol preserves the lock
invariant. -/
theorem lockInv_step {s s2 : SysState} (hInv : LockInv s) (hst : Step s s2) :
    LockInv s2 := by
  obtain ⟨wa, ma, ca, tsa⟩ := s
  obtain ⟨wb, mb, cb, tsb⟩ := s2
  obtain ⟨k, t, t2, hget, htstep, hset⟩ := hst
  simp only [LockInv, nMtx, nCnt, nRS, nW, gateR] at hInv ⊢
  obtain ⟨hm, hc, hw⟩ := hInv
  dsimp only at hget htstep hset hm hc hw ⊢
  have eM := countP_set isMtx tsa k t t2 hget
  have eC := countP_set isCnt tsa k t t2 hget
  have eR := countP_set isRS tsa k t t2 hget
  have eW := countP_set isWHold tsa k t t2 hget
  subst hset
  cases htstep with
  | rAcqMtx w m c =>
    simp [isMtx, isCnt, isRS, isWHold] at eM eC eR eW
    refine ⟨by omega, by omega, ?_⟩
    split_ifs at hw ⊢ <;> omega
  | rInc w m c =>
    simp [isMtx, isCnt, isRS, isWHold] at eM eC eR eW
    refine ⟨by omega, by omega, ?_⟩
    split_ifs at hw ⊢ <;> omega
  | rAcqGate w m c h =>
    simp [isMtx, isCnt, isRS, isWHold] at eM eC eR eW
    refine ⟨by omega, by omega, ?_⟩
    split_ifs at hw ⊢ <;> omega
  | rSkipGate w m c h =>
    simp [isMtx, isCnt, isRS, isWHold] at eM eC eR eW
    have hpos : 0 < tsa.countP isCnt :=
      countP_pos_of_get isCnt tsa k _ hget rfl
    have hle := nCnt_le tsa
    simp only [nCnt, nRS, nMtx] at hle
    refine ⟨by omega, by omega, ?_⟩
    split_ifs at hw ⊢ <;> omega
  | rRelMtx1 w m c =>
    simp [isMtx, isCnt, isRS, isWHold] at eM eC eR eW
    refine ⟨by omega, by omega, ?_⟩
    split_ifs at hw ⊢ <;> omega
  | rAcqMtx2 w m c =>
    simp [isMtx, isCnt, isRS, isWHold] at eM eC eR eW
    refine ⟨by omega, by omega, ?_⟩
    split_ifs at hw ⊢ <;> omega
  | rDec w m c =>
    simp [isMtx, isCnt, isRS, isWHold] at eM eC eR eW
    refine ⟨by omega, by omega, ?_⟩
    split_ifs at hw ⊢ <;> omega
  | rRelGate w m c h =>
    simp [isMtx, isCnt, isRS, isWHold] at eM eC eR eW
    have eM2 := countP_set isMtx tsa k _ TSt.wdone hget
    have eC2 := countP_set isCnt tsa k _ TSt.wdone hget
    have eR2 := countP_set isRS tsa k _ TSt.wdone hget
    simp [isMtx, isCnt, isRS, isWHold] at eM2 eC2 eR2
    have hle := nRS_le (tsa.set k TSt.wdone)
    simp only [nCnt, nRS, nMtx] at hle
    refine ⟨by omega, by omega, ?_⟩
    split_ifs at hw ⊢ <;> omega
  | rSkipRel w m c h =>
    simp [isMtx, isCnt, isRS, isWHold] at eM eC eR eW
    have eM2 := countP_set isMtx tsa k _ TSt.wdone hget
    have eC2 := countP_set isCnt tsa k _ TSt.wdone hget
    have eR2 := countP_set isRS tsa k _ TSt.wdone hget
    simp [isMtx, isCnt, isRS, isWHold] at eM2 eC2 eR2
    have hle := nCnt_le (tsa.set k TSt.wdone)
    simp only [nCnt, nRS, nMtx] at hle
    refine ⟨by omega, by omega, ?_⟩
    split_ifs at hw ⊢ <;> omega
  | rRelMtx2 w m c =>
    simp [isMtx, isCnt, isRS, isWHold] at eM eC eR eW
    refine ⟨by omega, by omega, ?_⟩
    split_ifs at hw ⊢ <;> omega
  | wStart b w m c =>
    cases b with
    | false =>
      simp [isMtx, isCnt, isRS, isWHold] at eM eC eR eW
      refine ⟨by omega, by omega, ?_⟩
      split_ifs at hw ⊢ <;> omega
    | true =>
      have hpos : 0 < tsa.countP isWHold :=
        countP_pos_of_get isWHold tsa k _ hget rfl
      exfalso
      split_ifs at hw <;> omega
  | wStop w m c =>
    simp [isMtx, isCnt, isRS, isWHold] at eM eC eR eW
    have hpos : 0 < tsa.countP isWHold :=
      countP_pos_of_get isWHold tsa k _ hget rfl
    refine ⟨by omega, by omega, ?_⟩
    split_ifs at hw ⊢ <;> omega
  | wTearHeld w m c =>
    simp [isMtx, isCnt, isRS, isWHold] at eM eC eR eW
    have hpos : 0 < tsa.countP isWHold :=
      countP_pos_of_get isWHold tsa k _ hget rfl
    refine ⟨by omega, by omega, ?_⟩
    split_ifs at hw ⊢ <;> omega
  | wTearFree w m c =>
    simp [isMtx, isCnt, isRS, isWHold] at eM eC eR eW
    refine ⟨by omega, by omega, ?_⟩
    split_ifs at hw ⊢ <;> omega

/-- The lock invariant holds in every state reachable from an initial
state. -/
theorem lockInv_reachable {s0 s : SysState} (h0 : IsInit s0)
    (h : Reachable s0 s) : LockInv s := by
  induction h with
  | refl => exact lockInv_init h0
  | tail _ hstep ih => exact lockInv_step ih hstep

/-- C1 (amended): in every reachable state of the lock protocol, at
most one writer session holds the writer gate; whenever some reader is
in its read section — past the 0-to-1 gate acquisition and before the
1-to-0 gate release — no writer holds the gate and the gate semaphore
is taken (so the 0-to-1 transition acquired the gate before the read
proceeded and the 1-to-0 transition releases it after the last reader);
and reader_count always equals the number of readers between their
increment and decrement.  The amendment (see c1_counterexample):
literally, reader_count can be positive while a writer holds the gate,
namely while the incrementing reader is still blocked in
sem_wait(&wrt) before its read section, so the exclusion is stated for
readers in the read section rather than for reader_count > 0. -/
theorem c1_mutual_exclusion (s0 s : SysState) (h0 : IsInit s0)
    (h : Reachable s0 s) :
    nW s.ts ≤ 1 ∧
    (0 < nRS s.ts → nW s.ts = 0 ∧ s.wrt = 0) ∧
    s.reader_count = (nCnt s.ts : Int) := by
  obtain ⟨hm, hc, hw⟩ := lockInv_reachable h0 h
  unfold gateR at hw
  refine ⟨?_, ?_, hc⟩
  · split_ifs at hw <;> omega
  · intro hpos
    split_ifs at hw <;> omega

/-- Witness for c1_mutual_exclusion: a concrete three-step execution in
which a single reader enters its read section, evaluated at its final
state. -/
theorem c1_mutual_exclusion_witness :
    IsInit ⟨1, 1, 0, [.reader .r0]⟩ ∧
    (nW (⟨0, 0, 1, [.reader .r3]⟩ : SysState).ts ≤ 1 ∧
     (0 < nRS (⟨0, 0, 1, [.reader .r3]⟩ : SysState).ts →
       nW (⟨0, 0, 1, [.reader .r3]⟩ : SysState).ts = 0 ∧
       (⟨0, 0, 1, [.reader .r3]⟩ : SysState).wrt = 0) ∧
     (⟨0, 0, 1, [.reader .r3]⟩ : SysState).reader_count =
       (nCnt (⟨0, 0, 1, [.reader .r3]⟩ : SysState).ts : Int)) := by
  have st1 : Step ⟨1, 1, 0, [.reader .r0]⟩ ⟨1, 0, 0, [.reader .r1]⟩ :=
    ⟨0, .reader .r0, .reader .r1, rfl, TStep.rAcqMtx 1 0 0, rfl⟩
  have st2 : Step ⟨1, 0, 0, [.reader .r1]⟩ ⟨1, 0, 1, [.reader .r2]⟩ :=
    ⟨0, .reader .r1, .reader .r2, rfl, TStep.rInc 1 0 0, rfl⟩
  have st3 : Step ⟨1, 0, 1, [.reader .r2]⟩ ⟨0, 0, 1, [.reader .r3]⟩ :=
    ⟨0, .reader .r2, .reader .r3, rfl, TStep.rAcqGate 0 0 1 rfl, rfl⟩
  have hreach : Reachable ⟨1, 1, 0, [.reader .r0]⟩ ⟨0, 0, 1, [.reader .r3]⟩ :=
    Relation.ReflTransGen.tail
      (Relation.ReflTransGen.tail
        (Relation.ReflTransGen.tail Relation.ReflTransGen.refl st1) st2) st3
  exact ⟨⟨rfl, rfl, rfl, by decide⟩, c1_mutual_exclusion _ _ ⟨rfl, rfl, rfl, by decide⟩ hreach⟩

/-- C1 counterexample: the claim as stated — reader_count is never
positive while a writer holds the gate — is false for the code: from
the initial state with one writer and one reader connection, after the
writer's start command and the reader's mutex entry and
reader_count++, the reachable state c1s3 has reader_count = 1 while
the writer still holds the gate (the reader is blocked at
sem_wait(&wrt), server.c line 233). -/
theorem c1_counterexample :
    IsInit c1s0 ∧ Reachable c1s0 c1s3 ∧
    0 < c1s3.reader_count ∧ nW c1s3.ts = 1 ∧ c1s3.wrt = 0 := by
  have st1 : Step c1s0 c1s1 :=
    ⟨0, .writer false, .writer true, rfl, TStep.wStart false 0 1 0, rfl⟩
  have st2 : Step c1s1 c1s2 :=
    ⟨1, .reader .r0, .reader .r1, rfl, TStep.rAcqMtx 0 0 0, rfl⟩
  have st3 : Step c1s2 c1s3 :=
    ⟨1, .reader .r1, .reader .r2, rfl, TStep.rInc 0 0 0, rfl⟩
  refine ⟨⟨rfl, rfl, rfl, by decide⟩, ?_, by decide, by decide, by decide⟩
  exact Relation.ReflTransGen.tail
    (Relation.ReflTransGen.tail
      (Relation.ReflTransGen.tail Relation.ReflTransGen.refl st1) st2) st3

/-! ## Writer session lemmas -/


/-- Every result string of the Store collaborator is a well-framed
reply: OK/ERROR prefixed, and newline-terminated unless the snprintf
truncation at 511 characters cut the diagnostic. -/
theorem goodReply_insert (o : DbOutcome) :
    GoodReply (insert_message_to_db_pool o) := by
  cases o with
  | ok => decide
  | noPool => decide
  | noClient => decide
  | noCollection => decide
  | insertFailed e =>
    have hsdata : (insert_message_to_db_pool (.insertFailed e)).data =
        ("ERROR: ".data ++
          ("insert failed: ".data ++ (e.data ++ ['\n']))).take 511 := by
      show (("ERROR: insert failed: " ++ e ++ "\n").data).take 511 = _
      have hd : ("ERROR: insert failed: " ++ e ++ "\n").data =
          "ERROR: ".data ++ ("insert failed: ".data ++ (e.data ++ ['\n'])) := by
        simp only [String.data_append]
        simp only [← List.append_assoc]
        rfl
      rw [hd]
    constructor
    · right
      rw [List.isPrefixOf_iff_prefix, hsdata,
        List.take_append_eq_append_take,
        List.take_of_length_le (by decide : ("ERROR: ".data).length ≤ 511)]
      exact List.prefix_append _ _
    · have hlen : ("ERROR: ".data ++
          ("insert failed: ".data ++ (e.data ++ ['\n']))).length =
          23 + e.data.length := by
        simp
        omega
      rcases le_or_lt ("ERROR: ".data ++
          ("insert failed: ".data ++ (e.data ++ ['\n']))).length 511 with hle | hlt
      · left
        rw [hsdata, List.take_of_length_le hle, ← List.append_assoc,
          ← List.append_assoc, List.getLast?_concat]
      · right; right; right
        show (insert_message_to_db_pool (.insertFailed e)).data.length = 511
        rw [hsdata, List.length_take]
        omega

/-- Exhaustive characterization of one writer-loop iteration: the
state change, the emitted events and the loop-exit flag in every
branch of server.c lines 186-218. -/
theorem loopStep_cases (db : Nat → DbOutcome) (st : WSt) (cmd : String)
    (st2 : WSt) (evs : List Ev) (ex : Bool)
    (h : loopStep db st cmd = some (st2, evs, ex)) :
    (st2 = st ∧ evs = [] ∧ ex = false) ∨
    (st.hasLock = false ∧ st2 = ⟨true, st.calls⟩ ∧
      evs = [Ev.acqW, Ev.send "OK: writer session started"] ∧ ex = false) ∨
    (st.hasLock = true ∧ st2 = ⟨false, st.calls⟩ ∧
      evs = [Ev.relW, Ev.send "OK: writer session stopped"] ∧ ex = false) ∨
    (st2 = st ∧ evs = [Ev.send "ERROR: no active writer session\n"] ∧
      ex = false) ∨
    (st2 = st ∧ evs = [] ∧ ex = true) ∨
    (st.hasLock = false ∧ st2 = st ∧
      evs = [Ev.send "ERROR: You must start writing first\n"] ∧ ex = false) ∨
    (st.hasLock = true ∧ st2 = ⟨true, st.calls + 1⟩ ∧
      evs = [Ev.insert cmd, Ev.send (insert_message_to_db_pool (db st.calls))] ∧
      ex = false) := by
  unfold loopStep at h
  split_ifs at h with h1 h2 h3 h4 h5 h6 h7
  · simp only [Option.some.injEq, Prod.mk.injEq] at h
    exact Or.inl ⟨h.1.symm, h.2.1.symm, h.2.2.symm⟩
  · simp only [Option.some.injEq, Prod.mk.injEq] at h
    refine Or.inr (Or.inl ?_)
    refine ⟨by simpa using h3, ?_, h.2.1.symm, h.2.2.symm⟩
    rw [← h.1]
  · simp only [Option.some.injEq, Prod.mk.injEq] at h
    refine Or.inr (Or.inr (Or.inl ?_))
    refine ⟨h5, ?_, h.2.1.symm, h.2.2.symm⟩
    rw [← h.1]
  · simp only [Option.some.injEq, Prod.mk.injEq] at h
    exact Or.inr (Or.inr (Or.inr (Or.inl ⟨h.1.symm, h.2.1.symm, h.2.2.symm⟩)))
  · simp only [Option.some.injEq, Prod.mk.injEq] at h
    exact Or.inr (Or.inr (Or.inr (Or.inr (Or.inl
      ⟨h.1.symm, h.2.1.symm, h.2.2.symm⟩))))
  · simp only [Option.some.injEq, Prod.mk.injEq] at h
    exact Or.inr (Or.inr (Or.inr (Or.inr (Or.inr (Or.inl
      ⟨h7, h.1.symm, h.2.1.symm, h.2.2.symm⟩)))))
  · simp only [Option.some.injEq, Prod.mk.injEq] at h
    refine Or.inr (Or.inr (Or.inr (Or.inr (Or.inr (Or.inr
      ⟨by simpa using h7, ?_, h.2.1.symm, h.2.2.symm⟩)))))
    rw [← h.1]
    cases hb : st.hasLock with
    | false => simp [hb] at h7
    | true => rfl

/-- Exhaustive characterization of the initial-payload handling
(server.c lines 164-183). -/
theorem initStep_cases (db : Nat → DbOutcome) (st : WSt) (cmd : String)
    (st2 : WSt) (evs : List Ev) (h : initStep db st cmd = some (st2, evs)) :
    (st.hasLock = false ∧ st2 = ⟨true, st.calls⟩ ∧
      evs = [Ev.acqW, Ev.send "OK: writer session started"]) ∨
    (st2 = st ∧ evs = [Ev.send "OK: writer session stopped"]) ∨
    (st.hasLock = false ∧ st2 = st ∧
      evs = [Ev.send "ERROR: start writing first\n"]) ∨
    (st.hasLock = true ∧ st2 = ⟨true, st.calls + 1⟩ ∧
      evs = [Ev.insert cmd, Ev.send (insert_message_to_db_pool (db st.calls))]) := by
  unfold initStep at h
  split_ifs at h with h1 h2 h3 h4
  · simp only [Option.some.injEq, Prod.mk.injEq] at h
    refine Or.inl ⟨by simpa using h2, ?_, h.2.symm⟩
    rw [← h.1]
  · simp only [Option.some.injEq, Prod.mk.injEq] at h
    exact Or.inr (Or.inl ⟨h.1.symm, h.2.symm⟩)
  · simp only [Option.some.injEq, Prod.mk.injEq] at h
    exact Or.inr (Or.inr (Or.inl ⟨h4, h.1.symm, h.2.symm⟩))
  · simp only [Option.some.injEq, Prod.mk.injEq] at h
    refine Or.inr (Or.inr (Or.inr ⟨by simpa using h4, ?_, h.2.symm⟩))
    rw [← h.1]
    cases hb : st.hasLock with
    | false => simp [hb] at h4
    | true => rfl

/-- A send of a well-framed reply is a well-behaved loop event. -/
theorem evOk_send (s : String) (h : GoodReply s) : EvOk (Ev.send s) :=
  ⟨by simp, fun s2 hs => by injection hs with h2; exact h2 ▸ h⟩

/-- Every event emitted by the handling of an initial payload is
well behaved: it is not a close, and every reply is well framed. -/
theorem initStep_evOk (db : Nat → DbOutcome) (st : WSt) (cmd : String)
    (st2 : WSt) (evs : List Ev) (h : initStep db st cmd = some (st2, evs)) :
    ∀ e ∈ evs, EvOk e := by
  rcases initStep_cases db st cmd st2 evs h with
    ⟨_, _, he⟩ | ⟨_, he⟩ | ⟨_, _, he⟩ | ⟨_, _, he⟩ <;> subst he <;>
    intro e hmem <;>
    simp only [List.mem_cons, List.not_mem_nil, or_false] at hmem
  · rcases hmem with rfl | rfl
    · exact ⟨by simp, fun s hs => by cases hs⟩
    · exact evOk_send _ (by decide)
  · subst hmem
    exact evOk_send _ (by decide)
  · subst hmem
    exact evOk_send _ (by decide)
  · rcases hmem with rfl | rfl
    · exact ⟨by simp, fun s hs => by cases hs⟩
    · exact evOk_send _ (goodReply_insert _)

/-- Every event emitted by one loop iteration is well behaved. -/
theorem loopStep_evOk (db : Nat → DbOutcome) (st : WSt) (cmd : String)
    (st2 : WSt) (evs : List Ev) (ex : Bool)
    (h : loopStep db st cmd = some (st2, evs, ex)) :
    ∀ e ∈ evs, EvOk e := by
  rcases loopStep_cases db st cmd st2 evs ex h with
    ⟨_, he, _⟩ | ⟨_, _, he, _⟩ | ⟨_, _, he, _⟩ | ⟨_, he, _⟩ | ⟨_, he, _⟩ |
    ⟨_, _, he, _⟩ | ⟨_, _, he, _⟩ <;> subst he <;>
    intro e hmem <;>
    simp only [List.mem_cons, List.not_mem_nil, or_false] at hmem
  · rcases hmem with rfl | rfl
    · exact ⟨by simp, fun s hs => by cases hs⟩
    · exact evOk_send _ (by decide)
  · rcases hmem with rfl | rfl
    · exact ⟨by simp, fun s hs => by cases hs⟩
    · exact evOk_send _ (by decide)
  · subst hmem
    exact evOk_send _ (by decide)
  · subst hmem
    exact evOk_send _ (by decide)
  · rcases hmem with rfl | rfl
    · exact ⟨by simp, fun s hs => by cases hs⟩
    · exact evOk_send _ (goodReply_insert _)

/-- Gate balance of one loop iteration: acquisitions plus the incoming
has_lock token equal releases plus the outgoing has_lock token. -/
theorem loopStep_balance (db : Nat → DbOutcome) (st : WSt) (cmd : String)
    (st2 : WSt) (evs : List Ev) (ex : Bool)
    (h : loopStep db st cmd = some (st2, evs, ex)) :
    countEv Ev.acqW evs + (if st.hasLock then 1 else 0) =
      countEv Ev.relW evs + (if st2.hasLock then 1 else 0) := by
  rcases loopStep_cases db st cmd st2 evs ex h with
    ⟨h2, he, _⟩ | ⟨h1, h2, he, _⟩ | ⟨h1, h2, he, _⟩ | ⟨h2, he, _⟩ |
    ⟨h2, he, _⟩ | ⟨h1, h2, he, _⟩ | ⟨h1, h2, he, _⟩ <;> subst he <;> subst h2
  · rfl
  · simp [countEv, List.countP_cons, h1]
  · simp [countEv, List.countP_cons, h1]
  · simp [countEv, List.countP_cons]
  · rfl
  · simp [countEv, List.countP_cons]
  · simp [countEv, List.countP_cons, h1]

/-- Gate balance of the initial-payload handling. -/
theorem initStep_balance (db : Nat → DbOutcome) (st : WSt) (cmd : String)
    (st2 : WSt) (evs : List Ev) (h : initStep db st cmd = some (st2, evs)) :
    countEv Ev.acqW evs + (if st.hasLock then 1 else 0) =
      countEv Ev.relW evs + (if st2.hasLock then 1 else 0) := by
  rcases initStep_cases db st cmd st2 evs h with
    ⟨h1, h2, he⟩ | ⟨h2, he⟩ | ⟨h1, h2, he⟩ | ⟨h1, h2, he⟩ <;>
    subst he <;> subst h2
  · simp [countEv, List.countP_cons, h1]
  · rfl
  · simp [countEv, List.countP_cons]
  · simp [countEv, List.countP_cons, h1]

/-- Induction over the writer receive loop: when the loop terminates,
its event trace is gate-balanced relative to the has_lock change and
every emitted event is well behaved. -/
theorem runLoop_props (db : Nat → DbOutcome) :
    ∀ (frames : List String) (st st2 : WSt) (evs : List Ev),
      runLoop db st frames = some (st2, evs) →
      (countEv Ev.acqW evs + (if st.hasLock then 1 else 0) =
        countEv Ev.relW evs + (if st2.hasLock then 1 else 0)) ∧
      ∀ e ∈ evs, EvOk e := by
  intro frames
  induction frames with
  | nil =>
    intro st st2 evs h
    unfold runLoop at h
    simp only [Option.some.injEq, Prod.mk.injEq] at h
    obtain ⟨h1, h2⟩ := h
    subst h1; subst h2
    exact ⟨rfl, by simp⟩
  | cons f rest ih =>
    intro st st2 evs h
    unfold runLoop at h
    cases hls : loopStep db st (rtrim f) with
    | none => rw [hls] at h; exact absurd h (by simp)
    | some trip =>
      obtain ⟨stm, evsm, ex⟩ := trip
      rw [hls] at h
      dsimp only at h
      cases ex with
      | true =>
        rw [if_pos rfl] at h
        simp only [Option.some.injEq, Prod.mk.injEq] at h
        obtain ⟨h1, h2⟩ := h
        subst h1; subst h2
        exact ⟨loopStep_balance db st (rtrim f) _ _ _ hls,
          loopStep_evOk db st (rtrim f) _ _ _ hls⟩
      | false =>
        rw [if_neg (by simp)] at h
        cases hrl : runLoop db stm rest with
        | none => rw [hrl] at h; exact absurd h (by simp)
        | some pr =>
          obtain ⟨st3, evs2⟩ := pr
          rw [hrl] at h
          dsimp only at h
          simp only [Option.some.injEq, Prod.mk.injEq] at h
          obtain ⟨h1, h2⟩ := h
          subst h1; subst h2
          have hb1 := loopStep_balance db st (rtrim f) _ _ _ hls
          have hok1 := loopStep_evOk db st (rtrim f) _ _ _ hls
          obtain ⟨hb2, hok2⟩ := ih stm st3 evs2 hrl
          constructor
          · unfold countEv at hb1 hb2 ⊢
            rw [List.countP_append, List.countP_append]
            omega
          · intro e he
            rcases List.mem_append.mp he with hm | hm
            · exact hok1 e hm
            · exact hok2 e hm

/-- A trace of well-behaved events contains no close. -/
theorem countEv_close_zero (evs : List Ev) (h : ∀ e ∈ evs, EvOk e) :
    countEv Ev.close evs = 0 := by
  unfold countEv
  rw [List.countP_eq_zero]
  intro e he
  simp only [beq_iff_eq]
  exact (h e he).1

/-- C2: auto-release on teardown.  For every writer connection whose
command loop terminates — by an exit command or because the peer stops
delivering frames (end of stream or receive error) — the complete
handler trace balances every writer-gate acquisition with a release
(so a disconnecting writer never leaves the gate held: if has_lock is
still true at loop exit, the teardown of server.c lines 220-223 posts
the gate exactly once), closes the socket exactly once, and that close
is the last action, after any teardown release. -/
theorem c2_teardown_releases (db : Nat → DbOutcome) (payload : Option String)
    (frames : List String) (tr : List Ev)
    (h : runWriter db payload frames = some tr) :
    countEv Ev.relW tr = countEv Ev.acqW tr ∧
    countEv Ev.close tr = 1 ∧
    tr.getLast? = some Ev.close := by
  unfold runWriter at h
  have main : ∀ (st0 : WSt) (evs0 : List Ev),
      (countEv Ev.acqW evs0 + 0 =
        countEv Ev.relW evs0 + (if st0.hasLock then 1 else 0)) →
      (∀ e ∈ evs0, EvOk e) →
      (match runLoop db st0 frames with
        | none => none
        | some (st2, evs1) =>
          some (evs0 ++ evs1 ++
            (if st2.hasLock then [Ev.relW] else []) ++ [Ev.close])) = some tr →
      countEv Ev.relW tr = countEv Ev.acqW tr ∧
      countEv Ev.close tr = 1 ∧
      tr.getLast? = some Ev.close := by
    intro st0 evs0 hb0 hok0 hm
    cases hrl : runLoop db st0 frames with
    | none => rw [hrl] at hm; exact absurd hm (by simp)
    | some pr =>
      obtain ⟨st2, evs1⟩ := pr
      rw [hrl] at hm
      dsimp only at hm
      injection hm with hm2
      subst hm2
      obtain ⟨hb1, hok1⟩ := runLoop_props db frames st0 st2 evs1 hrl
      have hc0 := countEv_close_zero evs0 hok0
      have hc1 := countEv_close_zero evs1 hok1
      refine ⟨?_, ?_, ?_⟩
      · unfold countEv at hb0 hb1 ⊢
        rw [List.countP_append, List.countP_append, List.countP_append]
        cases hsl : st2.hasLock <;> rw [hsl] at hb1 <;> simp_all <;> omega
      · unfold countEv at hc0 hc1 ⊢
        rw [List.countP_append, List.countP_append, List.countP_append]
        cases hsl : st2.hasLock <;> simp_all
      · exact List.getLast?_concat _
  rcases payload with _ | p
  · dsimp only at h
    exact main ⟨false, 0⟩ [] (by simp [countEv]) (by simp) h
  · dsimp only at h
    cases hini : initStep db ⟨false, 0⟩ p with
    | none => rw [hini] at h; exact absurd h (by simp)
    | some pr0 =>
      obtain ⟨st0, evs0⟩ := pr0
      rw [hini] at h
      dsimp only at h
      have hb := initStep_balance db ⟨false, 0⟩ p st0 evs0 hini
      exact main st0 evs0 (by simpa using hb) (initStep_evOk db _ p _ _ hini) h

/-- Witness for c2_teardown_releases at a concrete session: start,
append one message, then exit with the lock still held. -/
theorem c2_teardown_releases_witness :
    runWriter db0 (some "start") ["hello", "exit"] =
      some [Ev.acqW, Ev.send "OK: writer session started",
        Ev.insert "hello", Ev.send "OK: message stored\n",
        Ev.relW, Ev.close] ∧
    (countEv Ev.relW [Ev.acqW, Ev.send "OK: writer session started",
        Ev.insert "hello", Ev.send "OK: message stored\n",
        Ev.relW, Ev.close] =
      countEv Ev.acqW [Ev.acqW, Ev.send "OK: writer session started",
        Ev.insert "hello", Ev.send "OK: message stored\n",
        Ev.relW, Ev.close] ∧
     countEv Ev.close [Ev.acqW, Ev.send "OK: writer session started",
        Ev.insert "hello", Ev.send "OK: message stored\n",
        Ev.relW, Ev.close] = 1 ∧
     List.getLast? [Ev.acqW, Ev.send "OK: writer session started",
        Ev.insert "hello", Ev.send "OK: message stored\n",
        Ev.relW, Ev.close] = some Ev.close) :=
  ⟨by decide, c2_teardown_releases db0 (some "start") ["hello", "exit"] _
    (by decide)⟩

/-- C3: the start command of the writer loop (server.c line 191-195)
performs sem_wait(&wrt) unconditionally — it does not check has_lock —
so a first start acquires the gate, sets has_lock and replies
"OK: writer session started" (sent without its newline), but a second
start while the session already holds the gate blocks forever in
sem_wait on the gate this very session holds, which nothing can post:
the handler never terminates (result none), the connection never
reaches teardown or close.  The specified behavior — a start while
holdsWriteLock is true performs no second acquisition — is violated. -/
theorem c3_double_start_deadlock :
    loopStep db0 ⟨false, 0⟩ "start" =
      some (⟨true, 0⟩, [Ev.acqW, Ev.send "OK: writer session started"],
        false) ∧
    loopStep db0 ⟨true, 0⟩ "start" = none ∧
    runWriter db0 none ["start", "start"] = none ∧
    runWriter db0 none ["start", "start", "stop", "exit"] = none := by
  decide

/-- C4 (amended): the stop command in the writer loop behaves exactly
as specified — with the lock held it releases the gate, clears
has_lock and replies "OK: writer session stopped" (transmitted without
its trailing newline, 26 of 27 bytes); without the lock it replies
"ERROR: no active writer session" and changes no state.  The amendment
(see c4_counterexample) concerns stop as the trailing payload of the
initial role frame: there the code (server.c lines 170-172, commented
"stop without lock => no-op") always replies "OK: writer session
stopped" with no state change and no release, never the specified
error reply — the lock can never be held at that point. -/
theorem c4_stop_semantics (db : Nat → DbOutcome) (st : WSt) :
    loopStep db st "stop" =
      (if st.hasLock then
        some (⟨false, st.calls⟩,
          [Ev.relW, Ev.send "OK: writer session stopped"], false)
      else
        some (st, [Ev.send "ERROR: no active writer session\n"], false)) ∧
    initStep db st "stop" =
      some (st, [Ev.send "OK: writer session stopped"]) := by
  obtain ⟨hl, c⟩ := st
  cases hl <;> exact ⟨rfl, rfl⟩

/-- C4 counterexample: a writer whose first frame carries the trailing
payload "stop" (holdsWriteLock is false) is answered with
"OK: writer session stopped", not with the specified
"ERROR: no active writer session". -/
theorem c4_counterexample :
    runWriter db0 (some "stop") [] =
      some [Ev.send "OK: writer session stopped", Ev.close] ∧
    "OK: writer session stopped" ≠ "ERROR: no active writer session" ∧
    "OK: writer session stopped" ≠ "ERROR: no active writer session\n" := by
  decide

/-- C5 (amended): any non-empty command other than start/stop/exit
received while has_lock is false is rejected without any Store call —
with reply "ERROR: You must start writing first\n" in the command loop
(capital Y, unlike the lowercase reply quoted by the specification)
and with reply "ERROR: start writing first\n" when the command arrived
as the initial-frame payload; when has_lock is true the text is passed
to Store.append and the collaborator's OK/ERROR result string is
relayed verbatim. -/
theorem c5_append_requires_session (db : Nat → DbOutcome) (st : WSt)
    (s : String) (h1 : s ≠ "") (h2 : s ≠ "start") (h3 : s ≠ "stop")
    (h4 : s ≠ "exit") :
    (st.hasLock = false →
      loopStep db st s =
        some (st, [Ev.send "ERROR: You must start writing first\n"],
          false) ∧
      initStep db st s =
        some (st, [Ev.send "ERROR: start writing first\n"])) ∧
    (st.hasLock = true →
      loopStep db st s =
        some (⟨true, st.calls + 1⟩,
          [Ev.insert s, Ev.send (insert_message_to_db_pool (db st.calls))],
          false) ∧
      initStep db st s =
        some (⟨true, st.calls + 1⟩,
          [Ev.insert s, Ev.send (insert_message_to_db_pool (db st.calls))])) := by
  obtain ⟨hl, c⟩ := st
  cases hl with
  | false =>
    refine ⟨fun _ => ⟨?_, ?_⟩, fun htrue => by simp at htrue⟩
    · simp [loopStep, h1, h2, h3, h4]
    · simp [initStep, h2, h3]
  | true =>
    refine ⟨fun hfalse => by simp at hfalse, fun _ => ⟨?_, ?_⟩⟩
    · simp [loopStep, h1, h2, h3, h4]
    · simp [initStep, h2, h3]

/-- Witness for c5_append_requires_session: the message "hello" on a
fresh session. -/
theorem c5_append_requires_session_witness :
    ((⟨false, 0⟩ : WSt).hasLock = false →
      loopStep db0 ⟨false, 0⟩ "hello" =
        some (⟨false, 0⟩, [Ev.send "ERROR: You must start writing first\n"],
          false) ∧
      initStep db0 ⟨false, 0⟩ "hello" =
        some (⟨false, 0⟩, [Ev.send "ERROR: start writing first\n"])) ∧
    ((⟨false, 0⟩ : WSt).hasLock = true →
      loopStep db0 ⟨false, 0⟩ "hello" =
        some (⟨true, 0 + 1⟩,
          [Ev.insert "hello",
            Ev.send (insert_message_to_db_pool (db0 0))], false) ∧
      initStep db0 ⟨false, 0⟩ "hello" =
        some (⟨true, 0 + 1⟩,
          [Ev.insert "hello",
            Ev.send (insert_message_to_db_pool (db0 0))])) :=
  c5_append_requires_session db0 ⟨false, 0⟩ "hello"
    (by decide) (by decide) (by decide) (by decide)

/-- C5 counterexample: the reply actually sent for a message without
an active session is "ERROR: You must start writing first\n" — not the
string "ERROR: you must start writing first" stated by the claim (the
code capitalizes You, server.c line 209). -/
theorem c5_counterexample :
    runWriter db0 none ["hello"] =
      some [Ev.send "ERROR: You must start writing first\n", Ev.close] ∧
    "ERROR: You must start writing first\n" ≠
      "ERROR: you must start writing first" ∧
    "ERROR: You must start writing first\n" ≠
      "ERROR: you must start writing first\n" := by
  decide

/-- C6 (amended): the trailing payload of the initial role frame is
handled by a separate branch (server.c lines 164-183) that agrees with
the command loop only partially: it matches the loop exactly for
"start" and for message text while the lock is held, but it differs
for "stop" (always the OK-stopped reply, no release, no state change),
for "exit" (treated as message text instead of ending the loop), and
for message text without the lock (reply "ERROR: start writing first\n"
instead of the loop's "ERROR: You must start writing first\n"). -/
theorem c6_initial_payload_partial_equiv (db : Nat → DbOutcome) (st : WSt)
    (s : String) :
    (initStep db st "start" = projLoop db st "start") ∧
    (s ≠ "" → s ≠ "start" → s ≠ "stop" → s ≠ "exit" → st.hasLock = true →
      initStep db st s = projLoop db st s) ∧
    (initStep db st "stop" =
      some (st, [Ev.send "OK: writer session stopped"])) ∧
    (st.hasLock = false →
      initStep db st "exit" =
        some (st, [Ev.send "ERROR: start writing first\n"]) ∧
      projLoop db st "exit" = some (st, [])) ∧
    (s ≠ "" → s ≠ "start" → s ≠ "stop" → s ≠ "exit" → st.hasLock = false →
      initStep db st s =
        some (st, [Ev.send "ERROR: start writing first\n"]) ∧
      projLoop db st s =
        some (st, [Ev.send "ERROR: You must start writing first\n"])) := by
  obtain ⟨hl, c⟩ := st
  cases hl with
  | false =>
    refine ⟨rfl, ?_, rfl, fun _ => ⟨rfl, rfl⟩, ?_⟩
    · intro _ _ _ _ htrue
      simp at htrue
    · intro h1 h2 h3 h4 _
      constructor
      · simp [initStep, h2, h3]
      · simp [projLoop, loopStep, h1, h2, h3, h4]
  | true =>
    refine ⟨rfl, ?_, rfl, fun hfalse => by simp at hfalse, ?_⟩
    · intro h1 h2 h3 h4 _
      simp [initStep, projLoop, loopStep, h1, h2, h3, h4]
    · intro _ _ _ _ hfalse
      simp at hfalse

/-- Witness for c6_initial_payload_partial_equiv: the message "hello"
without the lock, where the two branches reply with different error
strings. -/
theorem c6_initial_payload_partial_equiv_witness :
    initStep db0 ⟨false, 0⟩ "hello" =
      some (⟨false, 0⟩, [Ev.send "ERROR: start writing first\n"]) ∧
    projLoop db0 ⟨false, 0⟩ "hello" =
      some (⟨false, 0⟩, [Ev.send "ERROR: You must start writing first\n"]) :=
  (c6_initial_payload_partial_equiv db0 ⟨false, 0⟩ "hello").2.2.2.2
    (by decide) (by decide) (by decide) (by decide) rfl

/-- C6 counterexample: the initial payload "stop" on a fresh writer
session is not handled like the loop command "stop" — the initial
branch replies OK while the loop replies with the no-active-session
error. -/
theorem c6_counterexample :
    initStep db0 ⟨false, 0⟩ "stop" =
      some (⟨false, 0⟩, [Ev.send "OK: writer session stopped"]) ∧
    projLoop db0 ⟨false, 0⟩ "stop" =
      some (⟨false, 0⟩, [Ev.send "ERROR: no active writer session\n"]) ∧
    initStep db0 ⟨false, 0⟩ "stop" ≠ projLoop db0 ⟨false, 0⟩ "stop" := by
  decide

/-- A prefix occurrence is in particular a substring occurrence. -/
theorem containsB_of_isPrefixOf (pat l : List Char)
    (h : pat.isPrefixOf l = true) : containsB pat l = true := by
  cases l with
  | nil =>
    cases pat with
    | nil => rfl
    | cons c t => simp [List.isPrefixOf] at h
  | cons c t =>
    unfold containsB
    rw [h]
    rfl

/-- A frame starting with "reader" does not start with "writer". -/
theorem wpre_rdata (u : List Char) :
    "writer".data.isPrefixOf ("reader".data ++ u) = false := rfl

/-- A frame starting with "reader" starts with "reader". -/
theorem rpre_rdata (u : List Char) :
    "reader".data.isPrefixOf ("reader".data ++ u) = true := by
  rw [List.isPrefixOf_iff_prefix]
  exact List.prefix_append _ _

/-- A frame starting with "writer" starts with "writer". -/
theorem wpre_wdata (u : List Char) :
    "writer".data.isPrefixOf ("writer".data ++ u) = true := by
  rw [List.isPrefixOf_iff_prefix]
  exact List.prefix_append _ _

/-- C7: role negotiation.  On the rtrimmed first frame: a frame
starting with "reader" yields the Reader role and one starting with
"writer" yields the Writer role; when neither prefix matches, a
substring search decides the role ("writer" checked first); and when
the frame contains neither token the role stays unknown and
handle_client closes the connection with no reply (its whole trace is
the close, server.c lines 250-254). -/
theorem c7_role_negotiation (db : Nat → DbOutcome)
    (docs : List (String × Nat)) (frames : List String) (s : String) :
    ("reader".data.isPrefixOf (rtrim s).data = true →
      detectRole (rtrim s) = .reader) ∧
    ("writer".data.isPrefixOf (rtrim s).data = true →
      detectRole (rtrim s) = .writer) ∧
    ("writer".data.isPrefixOf (rtrim s).data = false →
     "reader".data.isPrefixOf (rtrim s).data = false →
      (containsB "writer".data (rtrim s).data = true →
        detectRole (rtrim s) = .writer) ∧
      (containsB "writer".data (rtrim s).data = false →
       containsB "reader".data (rtrim s).data = true →
        detectRole (rtrim s) = .reader)) ∧
    (containsB "writer".data (rtrim s).data = false →
     containsB "reader".data (rtrim s).data = false →
      detectRole (rtrim s) = .unknown ∧
      handle_client db docs (some s) frames = some [Ev.close]) := by
  refine ⟨?_, ?_, ?_, ?_⟩
  · intro h
    obtain ⟨u, hu⟩ := List.isPrefixOf_iff_prefix.mp h
    unfold detectRole
    rw [← hu]
    simp [wpre_rdata, rpre_rdata]
  · intro h
    obtain ⟨u, hu⟩ := List.isPrefixOf_iff_prefix.mp h
    unfold detectRole
    rw [← hu]
    simp [wpre_wdata]
  · intro hw hr
    constructor
    · intro hcw
      unfold detectRole
      simp [hw, hr, hcw]
    · intro hcw hcr
      unfold detectRole
      simp [hw, hr, hcw, hcr]
  · intro hcw hcr
    have hpw : "writer".data.isPrefixOf (rtrim s).data = false := by
      cases hb : "writer".data.isPrefixOf (rtrim s).data with
      | false => rfl
      | true =>
        rw [containsB_of_isPrefixOf _ _ hb] at hcw
        cases hcw
    have hpr : "reader".data.isPrefixOf (rtrim s).data = false := by
      cases hb : "reader".data.isPrefixOf (rtrim s).data with
      | false => rfl
      | true =>
        rw [containsB_of_isPrefixOf _ _ hb] at hcr
        cases hcr
    have hrole : detectRole (rtrim s) = .unknown := by
      unfold detectRole
      simp [hpw, hpr, hcw, hcr]
    exact ⟨hrole, by simp [handle_client, hrole]⟩

/-- Witness for c7_role_negotiation: the unknown role token
"spectator" of the specification's scenario D. -/
theorem c7_role_negotiation_witness :
    detectRole (rtrim "spectator") = .unknown ∧
    handle_client db0 [] (some "spectator") [] = some [Ev.close] :=
  (c7_role_negotiation db0 [] [] "spectator").2.2.2 (by decide) (by decide)

/-! ## Reader buffer lemmas -/

/-- One strncat step on a buffer that is the 32767-truncation of some
ideal content extends the ideal content and re-truncates. -/
theorem strncatBuf_take (F L : List Char) :
    strncatBuf (F.take 32767) L = (F ++ L).take 32767 := by
  unfold strncatBuf
  rcases le_or_lt F.length 32767 with hle | hlt
  · rw [List.take_of_length_le hle, List.take_append_eq_append_take,
      List.take_of_length_le hle]
    have hidx : 32768 - F.length - 1 = 32767 - F.length := by omega
    rw [hidx]
  · have h0 : 32768 - (F.take 32767).length - 1 = 0 := by
      rw [List.length_take]
      omega
    rw [h0, List.take_zero, List.append_nil,
      List.take_append_eq_append_take]
    have h2 : 32767 - F.length = 0 := by omega
    rw [h2, List.take_zero, List.append_nil]

/-- Closed form of the strncat fold: the buffer is always the
32767-character truncation of the concatenation of the lines fed to
it. -/
theorem foldl_strncat (lines : List (List Char)) :
    ∀ F : List Char,
      lines.foldl (fun b l => strncatBuf b l) (F.take 32767) =
        (F ++ lines.flatten).take 32767 := by
  induction lines with
  | nil => intro F; simp
  | cons l ls ih =>
    intro F
    rw [List.foldl_cons, strncatBuf_take, ih (F ++ l), List.flatten_cons,
      List.append_assoc]

/-- Closed form of fetch_messages_from_db_pool: the frame built for
the reader is the 32767-character truncation of the concatenation of
the per-document lines, each already clipped to 1023 characters by its
own line buffer. -/
theorem fetch_eq_take (docs : List (String × Nat)) :
    fetch_messages_from_db_pool docs =
      ((docs.map fun d => clipLine d.1 d.2).flatten).take 32767 := by
  unfold fetch_messages_from_db_pool
  have h := foldl_strncat (docs.map fun d => clipLine d.1 d.2) []
  simp only [List.take_nil, List.nil_append] at h
  rw [← h, List.foldl_map]

/-- C10 (amended): the reader reply buffer never overflows — the frame
is at most 32767 characters (in particular at most 32768 bytes as the
claim states) and is a prefix of the concatenation of the formatted
lines after each line is truncated to the 1023 characters that fit in
char line[1024]; when every formatted line fits its line buffer, the
frame is a prefix of the full formatted message list.  The amendment
(see c10_counterexample): with a message whose formatted line exceeds
1023 characters followed by another message, the frame is not a prefix
of the full formatted list — the prefix property only holds relative
to the clipped lines. -/
theorem c10_reader_buffer_bound (docs : List (String × Nat)) :
    (fetch_messages_from_db_pool docs).length ≤ 32767 ∧
    fetch_messages_from_db_pool docs <+:
      ((docs.map fun d => clipLine d.1 d.2).flatten) ∧
    ((∀ d ∈ docs, (lineFull d.1 d.2).length ≤ 1023) →
      fetch_messages_from_db_pool docs <+:
        ((docs.map fun d => lineFull d.1 d.2).flatten)) := by
  refine ⟨?_, ?_, ?_⟩
  · rw [fetch_eq_take, List.length_take]
    omega
  · rw [fetch_eq_take]
    exact List.take_prefix _ _
  · intro hfit
    have hmap : (docs.map fun d => clipLine d.1 d.2) =
        docs.map fun d => lineFull d.1 d.2 :=
      List.map_congr_left fun d hd =>
        List.take_of_length_le (hfit d hd)
    rw [fetch_eq_take, hmap]
    exact List.take_prefix _ _

/-- Witness for c10_reader_buffer_bound: a store with one short
message. -/
theorem c10_reader_buffer_bound_witness :
    (∀ d ∈ [(("hi" : String), (0 : Nat))], (lineFull d.1 d.2).length ≤ 1023) ∧
    fetch_messages_from_db_pool [("hi", 0)] <+:
      (([(("hi" : String), (0 : Nat))].map fun d => lineFull d.1 d.2).flatten) :=
  ⟨by decide, (c10_reader_buffer_bound [("hi", 0)]).2.2 (by decide)⟩

set_option maxRecDepth 10000 in
/-- C10 counterexample: for the store docsTwo — a 1080-character
message followed by "b" — the frame sent to the reader is not a prefix
of the full formatted message list: the first line is clipped to 1023
characters by char line[1024] and the second line follows immediately,
so at position 1023 the frame diverges from the full list. -/
theorem c10_counterexample :
    (fetch_messages_from_db_pool docsTwo).isPrefixOf
      ((docsTwo.map fun d => lineFull d.1 d.2).flatten) = false ∧
    (fetch_messages_from_db_pool docsTwo).length = 1047 ∧
    ((docsTwo.map fun d => lineFull d.1 d.2).flatten).length = 1127 := by
  decide

/-- C8 (amended): for every reader connection, the handler acquires
the read side of the lock, fetches, sends exactly one reply frame and
releases after the send, then closes (server.c lines 229-248); when
every formatted line fits the 1023-character line buffer and the total
fits the 32767 characters of the output buffer, the frame is exactly
one line "[<timestamp>] <text>" per stored message, in cursor order;
with the cursor sorted ascending by timestamp the emitted timestamps
ascend.  The amendment (see c8_counterexample): for stores whose
formatted output exceeds either buffer the frame is truncated, so the
one-line-per-message property needs the two fit hypotheses. -/
theorem c8_reader_reply (docs : List (String × Nat))
    (hline : ∀ d ∈ docs, (lineFull d.1 d.2).length ≤ 1023)
    (htotal : ((docs.map fun d => lineFull d.1 d.2).flatten).length ≤ 32767)
    (hsorted : docs.Pairwise fun a b => a.2 ≤ b.2) :
    runReader docs =
      some [Ev.acqR, Ev.fetchAll,
        Ev.send (String.mk ((docs.map fun d => lineFull d.1 d.2).flatten)),
        Ev.relR, Ev.close] ∧
    (docs.map fun d => d.2).Pairwise fun a b => a ≤ b := by
  constructor
  · have hfetch : fetch_messages_from_db_pool docs =
        (docs.map fun d => lineFull d.1 d.2).flatten := by
      have hmap : (docs.map fun d => clipLine d.1 d.2) =
          docs.map fun d => lineFull d.1 d.2 :=
        List.map_congr_left fun d hd =>
          List.take_of_length_le (hline d hd)
      rw [fetch_eq_take, hmap]
      exact List.take_of_length_le htotal
    unfold runReader
    rw [hfetch]
  · exact hsorted.map _ fun a b h => h

/-- Witness for c8_reader_reply: a two-message store with ascending
timestamps. -/
theorem c8_reader_reply_witness :
    (∀ d ∈ [(("hi" : String), (0 : Nat)), ("yo", 1000)],
      (lineFull d.1 d.2).length ≤ 1023) ∧
    runReader [("hi", 0), ("yo", 1000)] =
      some [Ev.acqR, Ev.fetchAll,
        Ev.send (String.mk
          (([(("hi" : String), (0 : Nat)), ("yo", 1000)].map
            fun d => lineFull d.1 d.2).flatten)),
        Ev.relR, Ev.close] :=
  ⟨by decide,
    (c8_reader_reply [("hi", 0), ("yo", 1000)]
      (by decide) (by decide) (by decide)).1⟩

set_option maxRecDepth 10000 in
/-- C8 counterexample: for the store docsOneBig — one 1024-character
message — the frame sent to the reader is 1023 characters, not the
1047-character single formatted line, so the reply is not one full
line per stored message as the claim states for every store. -/
theorem c8_counterexample :
    runReader docsOneBig =
      some [Ev.acqR, Ev.fetchAll,
        Ev.send (String.mk (fetch_messages_from_db_pool docsOneBig)),
        Ev.relR, Ev.close] ∧
    (fetch_messages_from_db_pool docsOneBig).length = 1023 ∧
    ((docsOneBig.map fun d => lineFull d.1 d.2).flatten).length = 1047 ∧
    fetch_messages_from_db_pool docsOneBig ≠
      (docsOneBig.map fun d => lineFull d.1 d.2).flatten := by
  refine ⟨rfl, by decide, by decide, by decide⟩

/-- C9 (amended): every reply the writer branch sends is prefixed
"OK: " or "ERROR: "; every reply is a complete newline-terminated line
except that the two acknowledgements "OK: writer session started" and
"OK: writer session stopped" are transmitted with length 26 — their
full text but without the trailing newline of the 27-byte source
literal — and except a Store failure diagnostic truncated at the
511-character snprintf bound (then the sent length is exactly 511).
The amendment (see c9_counterexample): the claim's newline-termination
fails exactly for those replies. -/
theorem c9_reply_framing (db : Nat → DbOutcome) (payload : Option String)
    (frames : List String) (tr : List Ev) (s : String)
    (h : runWriter db payload frames = some tr) (hs : Ev.send s ∈ tr) :
    GoodReply s := by
  unfold runWriter at h
  have main : ∀ (st0 : WSt) (evs0 : List Ev), (∀ e ∈ evs0, EvOk e) →
      (match runLoop db st0 frames with
        | none => none
        | some (st2, evs1) =>
          some (evs0 ++ evs1 ++
            (if st2.hasLock then [Ev.relW] else []) ++ [Ev.close])) =
        some tr →
      GoodReply s := by
    intro st0 evs0 hok0 hm
    cases hrl : runLoop db st0 frames with
    | none => rw [hrl] at hm; exact absurd hm (by simp)
    | some pr =>
      obtain ⟨st2, evs1⟩ := pr
      rw [hrl] at hm
      dsimp only at hm
      injection hm with hm2
      subst hm2
      obtain ⟨-, hok1⟩ := runLoop_props db frames st0 st2 evs1 hrl
      rcases List.mem_append.mp hs with hs1 | hs1
      · rcases List.mem_append.mp hs1 with hs2 | hs2
        · rcases List.mem_append.mp hs2 with hs3 | hs3
          · exact ((hok0 _ hs3).2) s rfl
          · exact ((hok1 _ hs3).2) s rfl
        · cases hsl : st2.hasLock <;> rw [hsl] at hs2 <;> simp at hs2
      · simp at hs1
  rcases payload with _ | p
  · dsimp only at h
    exact main ⟨false, 0⟩ [] (by simp) h
  · dsimp only at h
    cases hini : initStep db ⟨false, 0⟩ p with
    | none => rw [hini] at h; exact absurd h (by simp)
    | some pr0 =>
      obtain ⟨st0, evs0⟩ := pr0
      rw [hini] at h
      dsimp only at h
      exact main st0 evs0 (initStep_evOk db _ p _ _ hini) h

/-- Witness for c9_reply_framing: the relayed Store acknowledgement of
one appended message. -/
theorem c9_reply_framing_witness :
    runWriter db0 (some "start") ["hi"] =
      some [Ev.acqW, Ev.send "OK: writer session started", Ev.insert "hi",
        Ev.send "OK: message stored\n", Ev.relW, Ev.close] ∧
    Ev.send "OK: message stored\n" ∈
      [Ev.acqW, Ev.send "OK: writer session started", Ev.insert "hi",
        Ev.send "OK: message stored\n", Ev.relW, Ev.close] ∧
    GoodReply "OK: message stored\n" :=
  ⟨by decide, by decide,
    c9_reply_framing db0 (some "start") ["hi"]
      [Ev.acqW, Ev.send "OK: writer session started", Ev.insert "hi",
        Ev.send "OK: message stored\n", Ev.relW, Ev.close]
      "OK: message stored\n" (by decide) (by decide)⟩

/-- C9 counterexample: the start acknowledgement actually transmitted
is the 26-byte string "OK: writer session started" — send() is called
with length 26 on the 27-byte literal (server.c line 168/194) — so
this writer reply is not a newline-terminated line as the claim
states; its last character is the letter d. -/
theorem c9_counterexample :
    runWriter db0 none ["start"] =
      some [Ev.acqW, Ev.send "OK: writer session started", Ev.relW,
        Ev.close] ∧
    ("OK: writer session started").data.getLast? = some 'd' ∧
    "OK: writer session started" ≠ "OK: writer session started\n" := by
  decide
